import Mathlib

/-!
Verification of the recipe-management backend's specified behaviour.

The repository ships the test suite of the application (under `app/core/tests`,
`app/recipe/tests`, `app/user/tests`) together with the user views; the model
and serializer modules themselves are absent, so the operations below are
shallow embeddings written from the specification's contracts (§3, §4 of
`spec.md`), each marked `Modelled from the spec:`.  The tests pin concrete
behaviours (owner scoping, OR-filtering, normalization, error cases) that the
theorems below check against these embeddings.
-/

namespace RecipeApp

/-- Identifier of a user record. -/
abbrev UserId := Nat

/-- Identifier of a Tag, Ingredient or Recipe record. -/
abbrev EntityId := Nat

/-- A raw byte stream, as submitted to the image-upload endpoint. -/
abbrev ByteStream := List Nat

/-- Modelled from the spec: error taxonomy of §7 — `ValidationError` for
empty/blank required fields, malformed payloads and undecodable images,
`InvalidCredentials` for failed logins, `NotFound` for missing or
other-owned records. -/
inductive Err where
  | validationError
  | invalidCredentials
  | notFound
deriving Repr, DecidableEq

/-- Modelled from the spec: a User record of §3 — email (stored normalized),
password stored only as a hash, optional display name, and the three flags. -/
structure User where
  id : UserId
  email : String
  passwordHash : String
  name : String
  is_active : Bool
  is_staff : Bool
  is_superuser : Bool
deriving Repr, DecidableEq

/-- Modelled from the spec: a Tag of §3 — a name owned by one user. -/
structure Tag where
  id : EntityId
  user : UserId
  name : String
deriving Repr, DecidableEq

/-- Modelled from the spec: an Ingredient of §3 — same shape as Tag. -/
structure Ingredient where
  id : EntityId
  user : UserId
  name : String
deriving Repr, DecidableEq

/-- Modelled from the spec: a Recipe of §3 — title, time, price (in cents),
optional link, optional image blob, owner, and many-to-many associations to
tags and ingredients held as id lists. -/
structure Recipe where
  id : EntityId
  user : UserId
  title : String
  time_in_minutes : Nat
  price : Int
  link : String
  image : Option ByteStream
  tags : List EntityId
  ingredients : List EntityId
deriving Repr, DecidableEq

/-- Modelled from the spec: the relational store of §6 — users, the three
entity tables, and the token table mapping opaque token strings to users. -/
structure DB where
  users : List User
  tags : List Tag
  ingredients : List Ingredient
  recipes : List Recipe
  tokens : List (String × UserId)
deriving Repr, DecidableEq

/-- The empty store. -/
def emptyDB : DB := ⟨[], [], [], [], []⟩

/-! ### Ordering helper

The listings of §4 are sorted (recipes by id descending, taxonomy entries by
name descending); insertion sort by an explicit comes-before predicate. -/

/-- Insert `a` before the first element it comes before. -/
def insertBy (lt : α → α → Bool) (a : α) : List α → List α
  | [] => [a]
  | b :: l => if lt a b then a :: b :: l else b :: insertBy lt a l

/-- Insertion sort by a comes-before predicate. -/
def sortBy (lt : α → α → Bool) : List α → List α
  | [] => []
  | a :: l => insertBy lt a (sortBy lt l)

theorem mem_insertBy (lt : α → α → Bool) (a x : α) (l : List α) :
    x ∈ insertBy lt a l ↔ x = a ∨ x ∈ l := by
  induction l with
  | nil => simp [insertBy]
  | cons b l ih =>
    simp only [insertBy]
    split
    · simp
    · simp only [List.mem_cons, ih]
      tauto

theorem mem_sortBy (lt : α → α → Bool) (x : α) (l : List α) :
    x ∈ sortBy lt l ↔ x ∈ l := by
  induction l with
  | nil => simp [sortBy]
  | cons a l ih => simp [sortBy, mem_insertBy, ih]

/-- Recipes are listed by identifier descending (§4.4). -/
def recipeBefore (a b : Recipe) : Bool := decide (b.id < a.id)

/-- Lexicographic comparison of character streams (the order strings carry). -/
def charListLt : List Char → List Char → Bool
  | _, [] => false
  | [], _ :: _ => true
  | a :: as, b :: bs =>
    if a < b then true else if b < a then false else charListLt as bs

/-- Taxonomy entries are listed by name descending (§4.3). -/
def tagBefore (a b : Tag) : Bool := charListLt b.name.data a.name.data

/-- Same ordering convention for ingredients (§4.3). -/
def ingredientBefore (a b : Ingredient) : Bool :=
  charListLt b.name.data a.name.data

/-! ### Query/filter layer (§4.5) -/

/-- Split a character stream at every comma. -/
def splitComma : List Char → List (List Char)
  | [] => [[]]
  | c :: rest =>
    match splitComma rest with
    | [] => [[]]
    | g :: gs => if c = ',' then [] :: g :: gs else (c :: g) :: gs

/-- Numeric value of a decimal digit character, `none` otherwise. -/
def digitVal? (c : Char) : Option Nat :=
  if c.isDigit then some (c.toNat - 48) else none

/-- Decimal value of a non-empty all-digit token, `none` otherwise. -/
def tokenNat? : List Char → Option Nat
  | [] => none
  | cs =>
    cs.foldl
      (fun acc c =>
        match acc, digitVal? c with
        | some a, some d => some (a * 10 + d)
        | _, _ => none)
      (some 0)

/-- Modelled from the spec: §4.5 — parse the comma-separated id list of a raw
filter string, ignoring malformed tokens defensively. -/
def parseIds (s : String) : List Nat :=
  (splitComma s.data).filterMap tokenNat?

/-- Modelled from the spec: §4.4 — with a `tags` filter present, keep recipes
having at least one matching tag (OR semantics within the id list). -/
def matchesTagFilter (tagsQ : Option String) (r : Recipe) : Bool :=
  match tagsQ with
  | none => true
  | some s => r.tags.any (fun t => (parseIds s).contains t)

/-- Modelled from the spec: §4.4 — with an `ingredients` filter present, keep
recipes having at least one matching ingredient. -/
def matchesIngredientFilter (ingQ : Option String) (r : Recipe) : Bool :=
  match ingQ with
  | none => true
  | some s => r.ingredients.any (fun i => (parseIds s).contains i)

/-- Modelled from the spec: §4.4/§4.5 — the recipe list operation: apply the
two filters (AND-composed when both present), scope to the caller, order by
id descending, and de-duplicate. -/
def listRecipes (db : DB) (owner : UserId) (tagsQ ingQ : Option String) :
    List Recipe :=
  (sortBy recipeBefore
    (((db.recipes.filter (matchesTagFilter tagsQ)).filter
        (matchesIngredientFilter ingQ)).filter
      (fun r => r.user == owner))).dedup

/-- Modelled from the spec: §4.3/glossary — a tag is assigned when some recipe
of the owner references it. -/
def tagAssigned (db : DB) (owner : UserId) (t : Tag) : Bool :=
  db.recipes.any (fun r => r.user == owner && r.tags.contains t.id)

/-- Modelled from the spec: §4.3/glossary — an ingredient is assigned when
some recipe of the owner references it. -/
def ingredientAssigned (db : DB) (owner : UserId) (i : Ingredient) : Bool :=
  db.recipes.any (fun r => r.user == owner && r.ingredients.contains i.id)

/-- Modelled from the spec: §4.3 — the tag list operation: scope to the
caller, optionally restrict to assigned entries, order by name descending,
duplicates collapsed. -/
def listTags (db : DB) (owner : UserId) (assignedOnly : Bool) : List Tag :=
  (sortBy tagBefore
    ((db.tags.filter (fun t => t.user == owner)).filter
      (fun t => !assignedOnly || tagAssigned db owner t))).dedup

/-- Modelled from the spec: §4.3 — the ingredient list operation, same shape
as the tag list. -/
def listIngredients (db : DB) (owner : UserId) (assignedOnly : Bool) :
    List Ingredient :=
  (sortBy ingredientBefore
    ((db.ingredients.filter (fun i => i.user == owner)).filter
      (fun i => !assignedOnly || ingredientAssigned db owner i))).dedup

/-- Modelled from the spec: §4.4 — the detail fetch, scoped to the caller;
`none` stands for the NotFound outcome when the id does not belong to the
caller. -/
def getRecipe (db : DB) (owner : UserId) (id : EntityId) : Option Recipe :=
  (db.recipes.filter (fun r => r.user == owner)).find? (fun r => r.id == id)

/-! ### Identity store (§4.1) -/

/-- Modelled from the spec: §6 — the one-way password hash is an external
collaborator; it is embedded as an abstract tagging function, the core only
ever compares hashes. -/
def hashPassword (p : String) : String := "pbkdf2$" ++ p

/-- Verify a password against a stored hash. -/
def checkPassword (p : String) (h : String) : Bool := hashPassword p == h

/-- Modelled from the spec: §3/§4.1 — emails are normalized to lower-case
before the uniqueness check and storage (`Name@Example.COM` becomes
`name@example.com`). -/
def normalizeEmail (e : String) : String := String.mk (e.data.map Char.toLower)

/-- The user record persisted by `createUser`: normalized email, hashed
password, active non-staff account. -/
def mkUserRecord (nextId : UserId) (email password name : String) : User :=
  ⟨nextId, normalizeEmail email, hashPassword password, name,
   true, false, false⟩

/-- Modelled from the spec: §4.1 — `createUser` fails with ValidationError
when the email is empty (the repository's own test expects the failure),
normalizes the email, enforces uniqueness, hashes the password, and appends
the new record.  On failure the store is returned unchanged. -/
def createUser (db : DB) (nextId : UserId) (email password name : String) :
    DB × Except Err User :=
  if email = "" then
    (db, Except.error Err.validationError)
  else if db.users.any (fun u => u.email == normalizeEmail email) then
    (db, Except.error Err.validationError)
  else
    ({ db with users := db.users ++ [mkUserRecord nextId email password name] },
     Except.ok (mkUserRecord nextId email password name))

/-- Modelled from the spec: the user serializer behind the signup endpoint is
absent from the sources; its minimum password length of five characters is
taken from the repository's own test (`test_password_too_short`, which posts
a two-character password and asserts a 400 with no user stored), a rule the
spec itself never states. -/
def minPasswordLength : Nat := 5

/-- Modelled from the spec: §4.1/§6 — the signup endpoint validates the
payload (rejecting short passwords with a client error) before delegating to
`createUser`. -/
def signup (db : DB) (nextId : UserId) (email password name : String) :
    DB × Except Err User :=
  if password.length < minPasswordLength then
    (db, Except.error Err.validationError)
  else
    createUser db nextId email password name

/-! ### Authentication gate (§4.2) -/

/-- Modelled from the spec: §4.1 — `authenticate(email, password)` resolves
the user whose stored email matches and whose stored hash verifies the
password, `none` otherwise. -/
def authenticate (db : DB) (email password : String) : Option User :=
  db.users.find? (fun u => u.email == email && checkPassword password u.passwordHash)

/-- Modelled from the spec: §3/§6 — opaque token derived from the user id by
the external token store. -/
def mkToken (uid : UserId) : String := "token$" ++ toString uid

/-- Modelled from the spec: §4.2 — `login` fails with InvalidCredentials when
the password is empty or the identity store cannot authenticate; on success
it returns the user's existing token, creating one on first login.  Failure
leaves the store unchanged and issues no token. -/
def login (db : DB) (email password : String) : DB × Except Err String :=
  if password = "" then
    (db, Except.error Err.invalidCredentials)
  else
    match authenticate db email password with
    | none => (db, Except.error Err.invalidCredentials)
    | some u =>
      match db.tokens.find? (fun t => t.2 == u.id) with
      | some t => (db, Except.ok t.1)
      | none =>
        let tok := mkToken u.id
        ({ db with tokens := db.tokens ++ [(tok, u.id)] }, Except.ok tok)

/-! ### Recipe mutations (§4.4) -/

/-- Modelled from the spec: §4.4 — a partial-update payload: every field is
optional, absent fields are left untouched. -/
structure RecipePayload where
  title : Option String
  time_in_minutes : Option Nat
  price : Option Int
  link : Option String
  tags : Option (List EntityId)
  ingredients : Option (List EntityId)
deriving Repr, DecidableEq

/-- The payload with every field absent. -/
def emptyPayload : RecipePayload := ⟨none, none, none, none, none, none⟩

/-- Modelled from the spec: §4.4 — apply a partial update: only fields present
in the payload are changed; an included `tags` or `ingredients` list fully
replaces the existing association set for that field only. -/
def applyPatch (p : RecipePayload) (r : Recipe) : Recipe :=
  { r with
    title := p.title.getD r.title
    time_in_minutes := p.time_in_minutes.getD r.time_in_minutes
    price := p.price.getD r.price
    link := p.link.getD r.link
    tags := p.tags.getD r.tags
    ingredients := p.ingredients.getD r.ingredients }

/-- Modelled from the spec: §4.5 — in-place replacement of the recipe row
carrying the given id (association writes included). -/
def updateRecipeIn (db : DB) (r : Recipe) : DB :=
  { db with recipes := db.recipes.map (fun x => if x.id == r.id then r else x) }

/-- Modelled from the spec: §4.4 — `patchUpdate(owner, id, payload)`:
resolve the recipe within the caller's scope (NotFound otherwise), apply the
payload, persist the updated row. -/
def patchUpdate (db : DB) (owner : UserId) (id : EntityId)
    (p : RecipePayload) : Option (DB × Recipe) :=
  match getRecipe db owner id with
  | none => none
  | some r =>
    let r2 := applyPatch p r
    some (updateRecipeIn db r2, r2)

/-- Modelled from the spec: §4.4 — a full-update payload: the required scalar
fields, with the associative lists optional. -/
structure FullRecipePayload where
  title : String
  time_in_minutes : Nat
  price : Int
  link : Option String
  tags : Option (List EntityId)
  ingredients : Option (List EntityId)
deriving Repr, DecidableEq

/-- Modelled from the spec: §4.4 — apply a full update: the scalar fields are
taken from the payload, and associative fields not present are cleared
(tags/ingredients default to empty when omitted). -/
def applyFull (p : FullRecipePayload) (r : Recipe) : Recipe :=
  { r with
    title := p.title
    time_in_minutes := p.time_in_minutes
    price := p.price
    link := p.link.getD r.link
    tags := p.tags.getD []
    ingredients := p.ingredients.getD [] }

/-- Modelled from the spec: §4.4 — `fullUpdate(owner, id, payload)`. -/
def fullUpdate (db : DB) (owner : UserId) (id : EntityId)
    (p : FullRecipePayload) : Option (DB × Recipe) :=
  match getRecipe db owner id with
  | none => none
  | some r =>
    let r2 := applyFull p r
    some (updateRecipeIn db r2, r2)

/-- Modelled from the spec: §4.4/§5 — `uploadImage(owner, id, imageBytes)`:
image-codec validation is the external collaborator `isImage`; the image is
stored only after validation succeeds, and a failed validation returns a
ValidationError with the store — in particular the prior image — untouched. -/
def uploadImage (isImage : ByteStream → Bool) (db : DB) (owner : UserId)
    (id : EntityId) (bytexs : ByteStream) : DB × Option Err :=
  match getRecipe db owner id with
  | none => (db, some Err.notFound)
  | some r =>
    if isImage bytexs then
      (updateRecipeIn db { r with image := some bytexs }, none)
    else
      (db, some Err.validationError)

/-! ### Concrete store used by the witnesses

Mirrors the fixtures of the repository's test suite: two users, tags and
ingredients for each, recipes with and without associations. -/

/-- First user of the test fixtures. -/
def aliceUser : User :=
  ⟨1, "salut@modulo.fr", hashPassword "password123", "Alice", true, false, false⟩

/-- Second user of the test fixtures. -/
def bobUser : User :=
  ⟨2, "test@modulo.fr", hashPassword "otherpass123", "Bob", true, false, false⟩

/-- A tag of the first user. -/
def veganTag : Tag := ⟨21, 1, "Vegan"⟩

/-- Another tag of the first user. -/
def vegTag : Tag := ⟨22, 1, "Vegetarian"⟩

/-- A tag of the second user. -/
def bobTag : Tag := ⟨23, 2, "Entremets"⟩

/-- An ingredient of the first user. -/
def fetaIng : Ingredient := ⟨31, 1, "Feta cheese"⟩

/-- An ingredient of the first user referenced by no recipe. -/
def eggsIng : Ingredient := ⟨32, 1, "Eggs"⟩

/-- A recipe of the first user carrying one tag and one ingredient. -/
def curryRecipe : Recipe :=
  ⟨10, 1, "Red thai curry", 15, 500, "", none, [21], [31]⟩

/-- A recipe of the first user with no associations. -/
def steakRecipe : Recipe :=
  ⟨11, 1, "Steak and mushrooms", 20, 700, "", none, [], []⟩

/-- A recipe of the second user. -/
def bobRecipe : Recipe :=
  ⟨12, 2, "Entremets glacé", 5, 100, "", none, [23], []⟩

/-- The concrete store assembled from the fixtures above. -/
def sampleDB : DB :=
  ⟨[aliceUser, bobUser], [veganTag, vegTag, bobTag], [fetaIng, eggsIng],
   [curryRecipe, steakRecipe, bobRecipe], []⟩

/-! ### Membership characterizations of the listings -/

theorem listRecipes_mem_iff (db : DB) (owner : UserId) (tq iq : Option String)
    (r : Recipe) :
    r ∈ listRecipes db owner tq iq ↔
      r ∈ db.recipes ∧ r.user = owner
        ∧ matchesTagFilter tq r = true ∧ matchesIngredientFilter iq r = true := by
  simp only [listRecipes, List.mem_dedup, mem_sortBy, List.mem_filter,
    beq_iff_eq]
  tauto

theorem listTags_mem_iff (db : DB) (owner : UserId) (ao : Bool) (t : Tag) :
    t ∈ listTags db owner ao ↔
      t ∈ db.tags ∧ t.user = owner ∧ (!ao || tagAssigned db owner t) = true := by
  simp only [listTags, List.mem_dedup, mem_sortBy, List.mem_filter,
    beq_iff_eq]
  tauto

theorem listIngredients_mem_iff (db : DB) (owner : UserId) (ao : Bool)
    (i : Ingredient) :
    i ∈ listIngredients db owner ao ↔
      i ∈ db.ingredients ∧ i.user = owner
        ∧ (!ao || ingredientAssigned db owner i) = true := by
  simp only [listIngredients, List.mem_dedup, mem_sortBy, List.mem_filter,
    beq_iff_eq]
  tauto

theorem getRecipe_some (db : DB) (owner : UserId) (id : EntityId) (r : Recipe)
    (h : getRecipe db owner id = some r) :
    r ∈ db.recipes ∧ r.user = owner ∧ r.id = id := by
  unfold getRecipe at h
  have hm := List.mem_of_find?_eq_some h
  have hp := List.find?_some h
  rw [List.mem_filter] at hm
  refine ⟨hm.1, ?_, ?_⟩
  · exact beq_iff_eq.mp hm.2
  · exact beq_iff_eq.mp hp

/-- C1: for every pair of distinct users U1 and U2, an entity (Recipe, Tag or
Ingredient) created by U1 never appears in the result of U2's list or detail
operations, and every element of list(owner) has owner as its user. -/
theorem c1_owner_scoped_visibility (db : DB) (owner u1 : UserId)
    (tq iq : Option String) (ao : Bool) (hne : u1 ≠ owner) :
    (∀ r ∈ listRecipes db owner tq iq, r.user = owner)
  ∧ (∀ t ∈ listTags db owner ao, t.user = owner)
  ∧ (∀ i ∈ listIngredients db owner ao, i.user = owner)
  ∧ (∀ id r, getRecipe db owner id = some r → r.user = owner)
  ∧ (∀ r ∈ listRecipes db owner tq iq, r.user ≠ u1)
  ∧ (∀ t ∈ listTags db owner ao, t.user ≠ u1)
  ∧ (∀ i ∈ listIngredients db owner ao, i.user ≠ u1)
  ∧ (∀ id r, getRecipe db owner id = some r → r.user ≠ u1) := by
  have hr : ∀ r ∈ listRecipes db owner tq iq, r.user = owner := by
    intro r h
    exact ((listRecipes_mem_iff db owner tq iq r).mp h).2.1
  have ht : ∀ t ∈ listTags db owner ao, t.user = owner := by
    intro t h
    exact ((listTags_mem_iff db owner ao t).mp h).2.1
  have hi : ∀ i ∈ listIngredients db owner ao, i.user = owner := by
    intro i h
    exact ((listIngredients_mem_iff db owner ao i).mp h).2.1
  have hg : ∀ id r, getRecipe db owner id = some r → r.user = owner := by
    intro id r h
    exact (getRecipe_some db owner id r h).2.1
  refine ⟨hr, ht, hi, hg, ?_, ?_, ?_, ?_⟩
  · intro r h
    rw [hr r h]
    exact fun h2 => hne h2.symm
  · intro t h
    rw [ht t h]
    exact fun h2 => hne h2.symm
  · intro i h
    rw [hi i h]
    exact fun h2 => hne h2.symm
  · intro id r h
    rw [hg id r h]
    exact fun h2 => hne h2.symm

/-- Witness for C1 on the concrete store: user 2's recipe list contains
`bobRecipe`, so the theorem yields that its user is 2 (hence not user 1). -/
theorem c1_owner_scoped_visibility_witness : bobRecipe.user = 2 :=
  (c1_owner_scoped_visibility sampleDB 2 1 none none false
    (by decide)).1 bobRecipe (by decide)

theorem matchesTagFilter_some_iff (s : String) (r : Recipe) :
    matchesTagFilter (some s) r = true ↔ ∃ t ∈ parseIds s, t ∈ r.tags := by
  simp only [matchesTagFilter, List.any_eq_true, List.elem_iff]
  tauto

theorem matchesIngredientFilter_some_iff (s : String) (r : Recipe) :
    matchesIngredientFilter (some s) r = true ↔
      ∃ i ∈ parseIds s, i ∈ r.ingredients := by
  simp only [matchesIngredientFilter, List.any_eq_true, List.elem_iff]
  tauto

theorem listRecipes_nodup (db : DB) (owner : UserId) (tq iq : Option String) :
    (listRecipes db owner tq iq).Nodup :=
  List.nodup_dedup _

/-- C2: for every owner and comma-separated id list passed as the tags
(respectively ingredients) filter, the recipe list returns exactly the
owner's recipes associated with at least one of the listed tags
(respectively ingredients) — OR semantics — and each matching recipe appears
exactly once even when it carries several of the listed tags. -/
theorem c2_filter_or_semantics_no_duplicates (db : DB) (owner : UserId)
    (ts qs : String) :
    ((∀ r, r ∈ listRecipes db owner (some ts) none ↔
        (r ∈ db.recipes ∧ r.user = owner ∧ ∃ t ∈ parseIds ts, t ∈ r.tags))
      ∧ ∀ r ∈ listRecipes db owner (some ts) none,
          (listRecipes db owner (some ts) none).count r = 1)
  ∧ ((∀ r, r ∈ listRecipes db owner none (some qs) ↔
        (r ∈ db.recipes ∧ r.user = owner ∧ ∃ i ∈ parseIds qs, i ∈ r.ingredients))
      ∧ ∀ r ∈ listRecipes db owner none (some qs),
          (listRecipes db owner none (some qs)).count r = 1) := by
  refine ⟨⟨?_, ?_⟩, ⟨?_, ?_⟩⟩
  · intro r
    rw [listRecipes_mem_iff, matchesTagFilter_some_iff]
    simp only [matchesIngredientFilter]
    tauto
  · intro r h
    exact List.count_eq_one_of_mem (listRecipes_nodup db owner (some ts) none) h
  · intro r
    rw [listRecipes_mem_iff, matchesIngredientFilter_some_iff]
    simp only [matchesTagFilter]
    tauto
  · intro r h
    exact List.count_eq_one_of_mem (listRecipes_nodup db owner none (some qs)) h

/-- Witness for C2 on the concrete store: filtering by the id list `21,22`
returns `curryRecipe` (tagged 21) exactly once. -/
theorem c2_filter_or_semantics_no_duplicates_witness :
    (listRecipes sampleDB 1 (some "21,22") none).count curryRecipe = 1 :=
  (c2_filter_or_semantics_no_duplicates sampleDB 1 "21,22" "31").1.2
    curryRecipe (by decide)

/-- C3: for every existing recipe and every patchUpdate payload, only the
fields present in the payload are changed — a payload containing only title
and tags leaves time_in_minutes and price at their prior values — and an
included tags (or ingredients) list fully replaces the association set:
prior tags absent from the list are removed. -/
theorem c3_patch_update_frame (db db2 : DB) (owner : UserId) (id : EntityId)
    (p : RecipePayload) (r r2 : Recipe)
    (hget : getRecipe db owner id = some r)
    (hupd : patchUpdate db owner id p = some (db2, r2)) :
    (p.title = none → r2.title = r.title)
  ∧ (p.time_in_minutes = none → r2.time_in_minutes = r.time_in_minutes)
  ∧ (p.price = none → r2.price = r.price)
  ∧ (p.link = none → r2.link = r.link)
  ∧ (p.tags = none → r2.tags = r.tags)
  ∧ (p.ingredients = none → r2.ingredients = r.ingredients)
  ∧ (∀ tl, p.tags = some tl → r2.tags = tl ∧ ∀ t, t ∉ tl → t ∉ r2.tags)
  ∧ (∀ il, p.ingredients = some il → r2.ingredients = il) := by
  unfold patchUpdate at hupd
  rw [hget] at hupd
  simp only [Option.some.injEq, Prod.mk.injEq] at hupd
  obtain ⟨hdb, hr⟩ := hupd
  subst hr
  refine ⟨?_, ?_, ?_, ?_, ?_, ?_, ?_, ?_⟩
  · intro h; simp [applyPatch, h]
  · intro h; simp [applyPatch, h]
  · intro h; simp [applyPatch, h]
  · intro h; simp [applyPatch, h]
  · intro h; simp [applyPatch, h]
  · intro h; simp [applyPatch, h]
  · intro tl h
    refine ⟨by simp [applyPatch, h], ?_⟩
    intro t hnot
    simp [applyPatch, h]
    exact hnot
  · intro il h; simp [applyPatch, h]

/-- The partial-update payload of the repository's test: only a new title and
a replacement tag list. -/
def chickenPayload : RecipePayload :=
  ⟨some "Chicken Massala", none, none, none, some [22], none⟩

/-- Witness for C3: patching `curryRecipe` with only title and tags keeps its
time and price and replaces its tag set by `[22]`. -/
theorem c3_patch_update_frame_witness :
    (applyPatch chickenPayload curryRecipe).time_in_minutes
        = curryRecipe.time_in_minutes
  ∧ (applyPatch chickenPayload curryRecipe).price = curryRecipe.price
  ∧ (applyPatch chickenPayload curryRecipe).tags = [22] := by
  have h := c3_patch_update_frame sampleDB
    (updateRecipeIn sampleDB (applyPatch chickenPayload curryRecipe))
    1 10 chickenPayload curryRecipe
    (applyPatch chickenPayload curryRecipe) (by decide) (by decide)
  exact ⟨h.2.1 rfl, h.2.2.1 rfl, (h.2.2.2.2.2.2.1 [22] rfl).1⟩

/-- C4: after a fullUpdate whose payload omits the tags and ingredients
fields, the recipe has zero associated tags and ingredients, whatever
associations it had before. -/
theorem c4_full_update_clears_associations (db db2 : DB) (owner : UserId)
    (id : EntityId) (p : FullRecipePayload) (r2 : Recipe)
    (hupd : fullUpdate db owner id p = some (db2, r2))
    (ht : p.tags = none) (hi : p.ingredients = none) :
    r2.tags = [] ∧ r2.ingredients = [] := by
  unfold fullUpdate at hupd
  cases hg : getRecipe db owner id with
  | none => rw [hg] at hupd; cases hupd
  | some r =>
    rw [hg] at hupd
    simp only [Option.some.injEq, Prod.mk.injEq] at hupd
    obtain ⟨hdb, hr⟩ := hupd
    subst hr
    constructor
    · simp [applyFull, ht]
    · simp [applyFull, hi]

/-- The full-update payload of the repository's test: all scalar fields and
no associative field. -/
def carbonaraPayload : FullRecipePayload :=
  ⟨"Spaghetti Carbonara", 12, 750, none, none, none⟩

/-- Witness for C4: putting `carbonaraPayload` over `curryRecipe` (which has
one tag and one ingredient) leaves zero tags and zero ingredients. -/
theorem c4_full_update_clears_associations_witness :
    (applyFull carbonaraPayload curryRecipe).tags = []
  ∧ (applyFull carbonaraPayload curryRecipe).ingredients = [] :=
  c4_full_update_clears_associations sampleDB
    (updateRecipeIn sampleDB (applyFull carbonaraPayload curryRecipe))
    1 10 carbonaraPayload (applyFull carbonaraPayload curryRecipe)
    (by decide) rfl rfl

/-- C5: for every recipe and every byte stream the image validator rejects,
uploadImage returns a validation failure and mutates no state: the store is
returned unchanged, and the detail fetch still yields the recipe with its
prior image field. -/
theorem c5_invalid_image_rejected (isImage : ByteStream → Bool) (db : DB)
    (owner : UserId) (id : EntityId) (bs : ByteStream) (r : Recipe)
    (hget : getRecipe db owner id = some r)
    (hbad : isImage bs = false) :
    (uploadImage isImage db owner id bs).2 = some Err.validationError
  ∧ (uploadImage isImage db owner id bs).1 = db
  ∧ getRecipe (uploadImage isImage db owner id bs).1 owner id = some r := by
  unfold uploadImage
  rw [hget, hbad]
  exact ⟨rfl, rfl, hget⟩

/-- The always-rejecting image validator: models a byte stream no codec can
decode. -/
def rejectAll : ByteStream → Bool := fun _ => false

/-- Witness for C5: uploading undecodable bytes to `curryRecipe` yields a
validation error, leaves the store unchanged and the recipe (with its image
field) still retrievable as before. -/
theorem c5_invalid_image_rejected_witness :
    (uploadImage rejectAll sampleDB 1 10 [110, 111]).2
        = some Err.validationError
  ∧ (uploadImage rejectAll sampleDB 1 10 [110, 111]).1 = sampleDB
  ∧ getRecipe (uploadImage rejectAll sampleDB 1 10 [110, 111]).1 1 10
        = some curryRecipe :=
  c5_invalid_image_rejected rejectAll sampleDB 1 10 [110, 111] curryRecipe
    (by decide) rfl

theorem listTags_nodup (db : DB) (owner : UserId) (ao : Bool) :
    (listTags db owner ao).Nodup :=
  List.nodup_dedup _

theorem listIngredients_nodup (db : DB) (owner : UserId) (ao : Bool) :
    (listIngredients db owner ao).Nodup :=
  List.nodup_dedup _

/-- C6: listAssignedOnly on a taxonomy resource returns exactly the owner's
entities referenced by at least one of the owner's recipes, and each such
entity appears exactly once even when referenced by several recipes. -/
theorem c6_assigned_only_exact_and_unique (db : DB) (owner : UserId) :
    ((∀ i, i ∈ listIngredients db owner true ↔
        (i ∈ db.ingredients ∧ i.user = owner
          ∧ ∃ r ∈ db.recipes, r.user = owner ∧ i.id ∈ r.ingredients))
      ∧ ∀ i ∈ listIngredients db owner true,
          (listIngredients db owner true).count i = 1)
  ∧ ((∀ t, t ∈ listTags db owner true ↔
        (t ∈ db.tags ∧ t.user = owner
          ∧ ∃ r ∈ db.recipes, r.user = owner ∧ t.id ∈ r.tags))
      ∧ ∀ t ∈ listTags db owner true,
          (listTags db owner true).count t = 1) := by
  refine ⟨⟨?_, ?_⟩, ⟨?_, ?_⟩⟩
  · intro i
    rw [listIngredients_mem_iff]
    simp only [ingredientAssigned, Bool.not_true, Bool.false_or,
      List.any_eq_true, Bool.and_eq_true, beq_iff_eq, List.elem_iff]
  · intro i h
    exact List.count_eq_one_of_mem (listIngredients_nodup db owner true) h
  · intro t
    rw [listTags_mem_iff]
    simp only [tagAssigned, Bool.not_true, Bool.false_or,
      List.any_eq_true, Bool.and_eq_true, beq_iff_eq, List.elem_iff]
  · intro t h
    exact List.count_eq_one_of_mem (listTags_nodup db owner true) h

/-- Witness for C6 on the concrete store: `fetaIng` is referenced by
`curryRecipe` while `eggsIng` is unassigned; the assigned-only listing
contains the former exactly once. -/
theorem c6_assigned_only_exact_and_unique_witness :
    (listIngredients sampleDB 1 true).count fetaIng = 1 :=
  (c6_assigned_only_exact_and_unique sampleDB 1).1.2 fetaIng (by decide)

/-- C7: a successfully created user stores the email with every character
lower-cased — the whole address, local part included. -/
theorem c7_email_stored_lowercase (db db2 : DB) (nextId : UserId)
    (email pw nm : String) (u : User)
    (h : createUser db nextId email pw nm = (db2, Except.ok u)) :
    u.email.data = email.data.map Char.toLower ∧ u ∈ db2.users := by
  unfold createUser at h
  split at h
  · cases h
  · split at h
    · cases h
    · simp only [Prod.mk.injEq, Except.ok.injEq] at h
      obtain ⟨hdb, hu⟩ := h
      subst hu
      subst hdb
      constructor
      · simp [mkUserRecord, normalizeEmail]
      · simp [mkUserRecord]

/-- The store holding exactly the user created from `Name@Example.COM`. -/
def normDB : DB :=
  ⟨[mkUserRecord 7 "Name@Example.COM" "pass1234" "Toto"], [], [], [], []⟩

/-- Witness for C7: creating a user with email `Name@Example.COM` in the
empty store yields the stored address `name@example.com`, present in the
resulting user table. -/
theorem c7_email_stored_lowercase_witness :
    (mkUserRecord 7 "Name@Example.COM" "pass1234" "Toto").email.data
        = "name@example.com".data
  ∧ mkUserRecord 7 "Name@Example.COM" "pass1234" "Toto" ∈ normDB.users := by
  have h := c7_email_stored_lowercase emptyDB normDB 7 "Name@Example.COM"
    "pass1234" "Toto" (mkUserRecord 7 "Name@Example.COM" "pass1234" "Toto")
    rfl
  exact ⟨h.1.trans (by decide), h.2⟩

/-- C8: createUser with an empty email string always fails with a
ValidationError and creates no user: the store comes back unchanged. -/
theorem c8_empty_email_rejected (db : DB) (nextId : UserId) (pw nm : String) :
    (createUser db nextId "" pw nm).2 = Except.error Err.validationError
  ∧ (createUser db nextId "" pw nm).1 = db := by
  unfold createUser
  simp

/-- Witness for C8: attempting to create a user with an empty email against
the concrete store fails and leaves it unchanged. -/
theorem c8_empty_email_rejected_witness :
    (createUser sampleDB 5 "" "pass123" "Nobody").2
        = Except.error Err.validationError
  ∧ (createUser sampleDB 5 "" "pass123" "Nobody").1 = sampleDB :=
  c8_empty_email_rejected sampleDB 5 "pass123" "Nobody"

theorem authenticate_eq_none (db : DB) (email pw : String)
    (h : ∀ u ∈ db.users, u.email = email →
      checkPassword pw u.passwordHash = false) :
    authenticate db email pw = none := by
  unfold authenticate
  rw [List.find?_eq_none]
  intro u hu
  simp only [Bool.and_eq_true, beq_iff_eq, not_and]
  intro he hc
  rw [h u hu he] at hc
  cases hc

theorem login_fails_of_bad_auth (db : DB) (email pw : String)
    (hauth : authenticate db email pw = none) :
    login db email pw = (db, Except.error Err.invalidCredentials) := by
  unfold login
  by_cases hpw : pw = ""
  · rw [if_pos hpw]
  · rw [if_neg hpw, hauth]

/-- C9: login fails with InvalidCredentials and issues no token — the token
table comes back unchanged — when the email belongs to no user, when the
password is empty, and when the password does not match the stored
credential of any user carrying that email. -/
theorem c9_login_failure_modes (db : DB) (email pw : String) :
    ((∀ u ∈ db.users, u.email ≠ email) →
      login db email pw = (db, Except.error Err.invalidCredentials))
  ∧ (pw = "" →
      login db email pw = (db, Except.error Err.invalidCredentials))
  ∧ ((∀ u ∈ db.users, u.email = email →
        checkPassword pw u.passwordHash = false) →
      login db email pw = (db, Except.error Err.invalidCredentials)) := by
  refine ⟨?_, ?_, ?_⟩
  · intro h
    exact login_fails_of_bad_auth db email pw
      (authenticate_eq_none db email pw
        (fun u hu he => absurd he (h u hu)))
  · intro h
    unfold login
    rw [if_pos h]
  · intro h
    exact login_fails_of_bad_auth db email pw (authenticate_eq_none db email pw h)

/-- Witness for C9 on the concrete store: unknown email, empty password and
wrong password each fail without touching the token table. -/
theorem c9_login_failure_modes_witness :
    login sampleDB "nobody@modulo.fr" "password123"
        = (sampleDB, Except.error Err.invalidCredentials)
  ∧ login sampleDB "salut@modulo.fr" ""
        = (sampleDB, Except.error Err.invalidCredentials)
  ∧ login sampleDB "salut@modulo.fr" "wrongpass"
        = (sampleDB, Except.error Err.invalidCredentials) :=
  ⟨(c9_login_failure_modes sampleDB "nobody@modulo.fr" "password123").1
      (by decide),
   (c9_login_failure_modes sampleDB "salut@modulo.fr" "").2.1 rfl,
   (c9_login_failure_modes sampleDB "salut@modulo.fr" "wrongpass").2.2
      (by decide)⟩

/-- C10: a signup whose password is shorter than five characters fails with a
validation error and stores nothing: the user table comes back unchanged, so
no record with that email exists afterwards when none existed before. -/
theorem c10_short_password_rejected (db : DB) (nextId : UserId)
    (email pw nm : String) (h : pw.length < minPasswordLength) :
    (signup db nextId email pw nm).2 = Except.error Err.validationError
  ∧ (signup db nextId email pw nm).1 = db
  ∧ ((∀ u ∈ db.users, u.email ≠ normalizeEmail email) →
      ∀ u ∈ (signup db nextId email pw nm).1.users,
        u.email ≠ normalizeEmail email) := by
  unfold signup
  rw [if_pos h]
  exact ⟨rfl, rfl, fun hnone => hnone⟩

/-- Witness for C10: posting the two-character password of the repository's
test against the empty store fails and leaves the user table empty. -/
theorem c10_short_password_rejected_witness :
    (signup emptyDB 1 "salut@modulo.fr" "pw" "Salut Monga").2
        = Except.error Err.validationError
  ∧ (signup emptyDB 1 "salut@modulo.fr" "pw" "Salut Monga").1 = emptyDB :=
  (fun h => ⟨h.1, h.2.1⟩)
    (c10_short_password_rejected emptyDB 1 "salut@modulo.fr" "pw"
      "Salut Monga" (by decide))

end RecipeApp
